import Mathlib

/-!
Verification of the connection-configuration resolver in src/Mongo.go
(package database of CardFrontendDevopsTeam/GoMongo).

The Go code is shallowly embedded as executable Lean definitions:

* `goUrlParse` models the fragment of Go net/url.Parse exercised by this
  package: scheme splitting, authority (userinfo/host) parsing with the
  port and character validation Go performs, path and raw-query splitting.
  Model scope: URLs without percent-escapes, without plus-encoded spaces in
  the query, and without bracketed IPv6 hosts; Go byte-level operations are
  modelled as operations on `Char` lists (ASCII inputs).
* `goQuery` models `url.Query()` / `url.ParseQuery`: the query is split on
  ampersands, segments containing a semicolon or an empty key are dropped,
  and values are grouped per key.  Go iterates the resulting map in an
  unspecified order; the model fixes first-appearance order, and the
  theorems below do not depend on the order beyond existence.
* `DialInfo` carries exactly the fields of mgo.DialInfo that the code sets;
  the `DialServer` closure (a TLS dialer) is modelled by the boolean
  `dialServerTLS`, true exactly when the code installed the TLS dialer.
* `parseMongoURL` and `processQuery` follow src/Mongo.go lines 82-148;
  `getDialInfoParameters` and `resolve` follow lines 37-80, with the
  environment passed explicitly and `log.Fatal` modelled as error return.
-/

namespace GoMongo

/-- Control characters rejected by net/url (stringContainsCTLByte): bytes
below 0x20 and 0x7f. -/
def isCTL (c : Char) : Bool := c.toNat < 32 || c.toNat == 127

/-- Boolean test that a character list begins with the given pattern. -/
def listStartsWith : List Char → List Char → Bool
  | _, [] => true
  | [], _ :: _ => false
  | c :: cs, p :: ps => c == p && listStartsWith cs ps

/-- Split at the first occurrence of `sep`: returns the part before it and,
when `sep` occurs, the part after it (the separator itself dropped).
Models strings.Cut / the `split` helper of net/url. -/
def cutFirst (sep : Char) : List Char → List Char × Option (List Char)
  | [] => ([], none)
  | c :: cs =>
    if c = sep then ([], some cs)
    else
      let r := cutFirst sep cs
      (c :: r.1, r.2)

/-- Split at the last occurrence of `sep` (both sides exclusive of the
separator); `none` when `sep` does not occur.  Models strings.LastIndex. -/
def cutLast (sep : Char) : List Char → Option (List Char × List Char)
  | [] => none
  | c :: cs =>
    match cutLast sep cs with
    | some (l, r) => some (c :: l, r)
    | none => if c = sep then some ([], cs) else none

/-- Models Go strings.Split with a one-character separator: splits on every
occurrence, and on the empty string yields a single empty segment.  The
result is never the empty list. -/
def goSplitList (sep : Char) : List Char → List (List Char)
  | [] => [[]]
  | c :: cs =>
    if c = sep then [] :: goSplitList sep cs
    else
      match goSplitList sep cs with
      | [] => [[c]]
      | s :: rest => (c :: s) :: rest

/-- Go strings.Split on a String with a one-character separator. -/
def goStringsSplit (s : String) (sep : Char) : List String :=
  (goSplitList sep s.toList).map String.mk

/-- Models Go strings.TrimPrefix: removes at most one copy of the given
leading pattern. -/
def goTrimPfx (s : String) (p : List Char) : String :=
  if listStartsWith s.toList p then String.mk (s.toList.drop p.length) else s

/-- Result of net/url getScheme: hard error (colon first), no scheme
(rest is the whole input), or a scheme plus the remainder. -/
inductive SchemeRes where
  | err : SchemeRes
  | noScheme : SchemeRes
  | found : List Char → List Char → SchemeRes

/-- Models the scanning loop of net/url getScheme.  `first` is true at the
first character; `acc` holds the scheme characters scanned so far, in
reverse. -/
def getSchemeAux (first : Bool) (acc : List Char) : List Char → SchemeRes
  | [] => .noScheme
  | c :: cs =>
    if c.isAlpha then getSchemeAux false (c :: acc) cs
    else if c = ':' then (if first then .err else .found acc.reverse cs)
    else if c.isDigit || c = '+' || c = '-' || c = '.' then
      (if first then .noScheme else getSchemeAux false (c :: acc) cs)
    else .noScheme

/-- Models net/url getScheme plus the lower-casing url.Parse applies. -/
def getScheme (raw : List Char) : Except String (List Char × List Char) :=
  match getSchemeAux true [] raw with
  | .err => .error "missing protocol scheme"
  | .noScheme => .ok ([], raw)
  | .found sch rest => .ok (sch.map Char.toLower, rest)

/-- Characters Go permits un-escaped in a host (shouldEscape with
encodeHost), plus any non-ASCII character; a percent sign is out of the
model's scope and treated as invalid. -/
def validHostChar (c : Char) : Bool :=
  c.isAlpha || c.isDigit || c == '-' || c == '.' || c == '_' || c == '~' ||
  c == '!' || c == '$' || c == '&' || c == '\'' || c == '(' || c == ')' ||
  c == '*' || c == '+' || c == ',' || c == ';' || c == '=' || c == ':' ||
  c == '[' || c == ']' || c == '<' || c == '>' || c == '\"' || c.toNat ≥ 128

/-- Characters net/url validUserinfo permits in the userinfo component. -/
def validUserinfoChar (c : Char) : Bool :=
  c.isAlpha || c.isDigit || c == '-' || c == '.' || c == '_' || c == ':' ||
  c == '~' || c == '!' || c == '$' || c == '&' || c == '\'' || c == '(' ||
  c == ')' || c == '*' || c == '+' || c == ',' || c == ';' || c == '=' ||
  c == '%' || c == '@'

/-- Models net/url parseHost for non-bracketed hosts without
percent-escapes: everything after the last colon must be digits
(validOptionalPort) and every character must be allowed in a host.
Bracketed IPv6 hosts are outside the model's scope. -/
def parseHost (host : List Char) : Except String (List Char) :=
  if host.headD ' ' == '[' then .error "unsupported bracketed host"
  else if (match cutLast ':' host with
           | some (_, port) => port.all Char.isDigit
           | none => true) then
    if host.all validHostChar then .ok host
    else .error "invalid character in host name"
  else .error "invalid port after host"

/-- The userinfo component of a URL.  `password = none` means no colon was
present (url.User.Password() reports false); `password = some p` means an
explicit, possibly empty, password. -/
structure Userinfo where
  username : String
  password : Option String
deriving DecidableEq

/-- The fields of net/url URL read by src/Mongo.go. -/
structure URL where
  Scheme : String
  User : Option Userinfo
  Host : String
  Path : String
  RawQuery : String
deriving DecidableEq

/-- Models net/url parseAuthority: the userinfo is everything before the
last at-sign; the userinfo is cut at its first colon into username and
password. -/
def parseAuthority (authority : List Char) : Except String (Option Userinfo × List Char) :=
  match cutLast '@' authority with
  | none =>
    match parseHost authority with
    | .error e => .error e
    | .ok h => .ok (none, h)
  | some (userinfo, hostPart) =>
    match parseHost hostPart with
    | .error e => .error e
    | .ok h =>
      if userinfo.all validUserinfoChar then
        match cutFirst ':' userinfo with
        | (u, none) => .ok (some ⟨String.mk u, none⟩, h)
        | (u, some p) => .ok (some ⟨String.mk u, some (String.mk p)⟩, h)
      else .error "invalid userinfo"

/-- The part of url.Parse after the scheme has been removed: query
splitting (with the ForceQuery special case), the opaque case, the
colon-in-first-path-segment check, and authority/path splitting.  An
opaque URL (scheme present, remainder not starting with a slash) yields
empty Host and Path, which is all src/Mongo.go reads of it. -/
def afterScheme (scheme rest1 : List Char) : Except String URL :=
  let qsplit :=
    if rest1.getLast? == some '?' && !(rest1.dropLast.contains '?') then
      (rest1.dropLast, ([] : List Char))
    else
      match cutFirst '?' rest1 with
      | (bef, none) => (bef, [])
      | (bef, some aft) => (bef, aft)
  let rest2 := qsplit.1
  let rawQuery := qsplit.2
  if !(listStartsWith rest2 ['/']) && !scheme.isEmpty then
    .ok ⟨String.mk scheme, none, "", "", String.mk rawQuery⟩
  else if !(listStartsWith rest2 ['/']) && ((cutFirst '/' rest2).1.contains ':') then
    .error "first path segment in URL cannot contain colon"
  else if (!scheme.isEmpty || !(listStartsWith rest2 ['/', '/', '/'])) &&
      listStartsWith rest2 ['/', '/'] then
    let asplit := cutFirst '/' (rest2.drop 2)
    let rest3 := match asplit.2 with | none => ([] : List Char) | some aft => '/' :: aft
    match parseAuthority asplit.1 with
    | .error e => .error e
    | .ok (user, host) =>
      .ok ⟨String.mk scheme, user, String.mk host, String.mk rest3, String.mk rawQuery⟩
  else .ok ⟨String.mk scheme, none, "", String.mk rest2, String.mk rawQuery⟩

/-- Models net/url Parse (viaRequest false) on the model's URL subset. -/
def goUrlParse (rawURL : String) : Except String URL :=
  let raw := rawURL.toList
  if raw.any isCTL then .error "invalid control character in URL"
  else if raw == ['*'] then .ok ⟨"", none, "", "*", ""⟩
  else
    match getScheme raw with
    | .error e => .error e
    | .ok (scheme, rest1) => afterScheme scheme rest1

/-- Models the pair extraction of url.ParseQuery: split the raw query on
ampersands, drop segments with an empty key or containing a semicolon
(Go drops invalid pairs from the Query() result), and cut each segment at
its first equals sign. -/
def parseQueryPairs (rawQuery : List Char) : List (String × String) :=
  (goSplitList '&' rawQuery).foldr
    (fun seg acc =>
      if seg.isEmpty then acc
      else if seg.contains ';' then acc
      else
        match cutFirst '=' seg with
        | (k, none) => (String.mk k, "") :: acc
        | (k, some v) => (String.mk k, String.mk v) :: acc)
    []

/-- Append a value for a key into url.Values, keeping first-appearance key
order. -/
def addPair (vals : List (String × List String)) (k v : String) : List (String × List String) :=
  match vals with
  | [] => [(k, [v])]
  | (k2, vs) :: rest =>
    if k2 = k then (k2, vs ++ [v]) :: rest else (k2, vs) :: addPair rest k v

/-- Models url.Query(): the query string as url.Values, an association of
each key with its values in order. -/
def goQuery (rawQuery : String) : List (String × List String) :=
  (parseQueryPairs rawQuery.toList).foldl (fun acc p => addPair acc p.1 p.2) []

/-- Models strconv.ParseBool. -/
def goParseBool (s : String) : Option Bool :=
  if s = "1" ∨ s = "t" ∨ s = "T" ∨ s = "TRUE" ∨ s = "true" ∨ s = "True" then some true
  else if s = "0" ∨ s = "f" ∨ s = "F" ∨ s = "FALSE" ∨ s = "false" ∨ s = "False" then some false
  else none

/-- Models strconv.Atoi on a 64-bit platform: optional sign, a non-empty
run of decimal digits, and a signed 64-bit range check (out of range is an
error, as in ParseInt). -/
def goAtoi (s : String) : Option Int :=
  let signed : Bool × List Char :=
    match s.toList with
    | '-' :: rest => (true, rest)
    | '+' :: rest => (false, rest)
    | chars => (false, chars)
  let neg := signed.1
  let digits := signed.2
  if digits.isEmpty then none
  else if digits.all Char.isDigit then
    let n : Nat := digits.foldl (fun acc c => 10 * acc + (c.toNat - 48)) 0
    let v : Int := if neg then -(n : Int) else (n : Int)
    if v < -(2 ^ 63) ∨ (2 ^ 63 - 1) < v then none else some v
  else none

/-- The fields of mgo.DialInfo that src/Mongo.go sets.  The DialServer
closure is modelled by `dialServerTLS`: true exactly when the code
installed the TLS dialer.  `Timeout` is in nanoseconds.  The defaults are
the Go zero values of mgo.DialInfo{}. -/
structure DialInfo where
  Addrs : List String := []
  Database : String := ""
  Username : String := ""
  Password : String := ""
  Source : String := ""
  Mechanism : String := ""
  Service : String := ""
  ReplicaSetName : String := ""
  PoolLimit : Int := 0
  Direct : Bool := false
  dialServerTLS : Bool := false
  Timeout : Nat := 0
deriving DecidableEq

/-- The query-option loop of parseMongoURL (src/Mongo.go lines 100-145).
Go takes `value = values[0]` when the key has values and the empty string
otherwise, which is `values.headD ""`. -/
def processQuery (info : DialInfo) : List (String × List String) → Except String DialInfo
  | [] => .ok info
  | (key, values) :: rest =>
    if key = "authSource" then processQuery { info with Source := values.headD "" } rest
    else if key = "authMechanism" then processQuery { info with Mechanism := values.headD "" } rest
    else if key = "gssapiServiceName" then processQuery { info with Service := values.headD "" } rest
    else if key = "replicaSet" then processQuery { info with ReplicaSetName := values.headD "" } rest
    else if key = "maxPoolSize" then
      match goAtoi (values.headD "") with
      | none => .error ("bad value for maxPoolSize: " ++ values.headD "")
      | some n => processQuery { info with PoolLimit := n } rest
    else if key = "ssl" then
      match goParseBool (values.headD "") with
      | none => .error ("bad value for ssl: " ++ values.headD "")
      | some b =>
        if b then processQuery { info with dialServerTLS := true } rest
        else processQuery info rest
    else if key = "connect" then
      if values.headD "" = "direct" then processQuery { info with Direct := true } rest
      else if values.headD "" = "replicaSet" then processQuery info rest
      else .error ("unsupported connection URL option: " ++ key ++ "=" ++ values.headD "")
    else .error ("unsupported connection URL option: " ++ key ++ "=" ++ values.headD "")

/-- The DialInfo parseMongoURL builds before the query loop (src/Mongo.go
lines 88-97).  Go sets Username/Password only when url.User is non-nil;
since the zero values are empty strings this is the match below. -/
def initInfo (u : URL) : DialInfo :=
  { Addrs := goStringsSplit u.Host ','
    Database := goTrimPfx u.Path ['/']
    Timeout := 10000000000
    Username := match u.User with | none => "" | some ui => ui.username
    Password := match u.User with | none => "" | some ui => ui.password.getD "" }

/-- src/Mongo.go parseMongoURL (lines 82-148). -/
def parseMongoURL (rawURL : String) : Except String DialInfo :=
  match goUrlParse rawURL with
  | .error e => .error e
  | .ok u => processQuery (initInfo u) (goQuery u.RawQuery)

/-- The ambient environment: a variable is either set to a string or
unset. -/
def Env : Type := String → Option String

/-- Go os.Getenv: the empty string when the variable is unset. -/
def getenv (env : Env) (v : String) : String := (env v).getD ""

/-- Modelled from the spec: `mongoConnectionString` is declared in this
package but its body is not under src/; per the spec it reads the MONGO
combined connection-string variable. -/
def mongoConnectionString (env : Env) : String := getenv env "MONGO"

/-- Modelled from the spec: `mongoServers` is not under src/; per the spec
it reads MONGO_SERVERS as a comma-separated host:port list. -/
def mongoServers (env : Env) : List String :=
  goStringsSplit (getenv env "MONGO_SERVERS") ','

/-- Modelled from the spec: `mongoUser` is not under src/; it reads
MONGO_USER. -/
def mongoUser (env : Env) : String := getenv env "MONGO_USER"

/-- Modelled from the spec: `mongoPassword` is not under src/; it reads
MONGO_PASSWORD. -/
def mongoPassword (env : Env) : String := getenv env "MONGO_PASSWORD"

/-- Modelled from the spec: `mongoDB` is not under src/; it reads
MONGO_DATABASE. -/
def mongoDB (env : Env) : String := getenv env "MONGO_DATABASE"

/-- Modelled from the spec: `mongoReplicaSet` is not under src/; it reads
MONGO_REPLICA_SET. -/
def mongoReplicaSet (env : Env) : String := getenv env "MONGO_REPLICA_SET"

/-- Modelled from the spec: `mongoAuthSource` is not under src/; it reads
MONGO_AUTH_SOURCE. -/
def mongoAuthSource (env : Env) : String := getenv env "MONGO_AUTH_SOURCE"

/-- Modelled from the spec: `mongoSSL` is not under src/; it reads the
boolean string MONGO_SSL (type coercion only, false when absent or not a
boolean). -/
def mongoSSL (env : Env) : Bool := (goParseBool (getenv env "MONGO_SSL")).getD false

/-- src/Mongo.go getDialInfoParameters (lines 63-80): the discrete
parameters path; installs the TLS dialer when MONGO_SSL is true. -/
def getDialInfoParameters (env : Env) : DialInfo :=
  let base : DialInfo :=
    { Addrs := mongoServers env
      Database := mongoDB env
      Password := mongoPassword env
      Username := mongoUser env
      ReplicaSetName := mongoReplicaSet env
      Source := mongoAuthSource env }
  if mongoSSL env then { base with dialServerTLS := true } else base

/-- The descriptor-resolution logic of init (src/Mongo.go lines 40-52):
when the combined connection string is empty the discrete path is taken,
otherwise parseMongoURL decides; its failure (log.Fatal in Go) is the
error case. -/
def resolve (env : Env) : Except String DialInfo :=
  if mongoConnectionString env = "" then .ok (getDialInfoParameters env)
  else parseMongoURL (mongoConnectionString env)

/-- The recognized query keys of the option loop. -/
def recognizedKey (k : String) : Bool :=
  k == "authSource" || k == "authMechanism" || k == "gssapiServiceName" ||
  k == "replicaSet" || k == "maxPoolSize" || k == "ssl" || k == "connect"

/-- A value acceptable for its key: the recognized typed options parse and
connect is one of its two accepted values. -/
def validVal (k v : String) : Prop :=
  (k = "maxPoolSize" → (goAtoi v).isSome = true) ∧
  (k = "ssl" → (goParseBool v).isSome = true) ∧
  (k = "connect" → v = "direct" ∨ v = "replicaSet")

/-- A sample environment with both the combined connection string and a
discrete variable set. -/
def envWithMongo : Env := fun v => if v = "MONGO" then some "mongodb://h/d" else some "ignored"

/-- A sample environment with MONGO unset. -/
def envDiscrete : Env := fun v => if v = "MONGO" then none else some "x"

/-- A pair on which the loop must fail: an unrecognized key, a non-integer
maxPoolSize, a non-boolean ssl, or a connect value that is neither direct
nor replicaSet. -/
def badPair (k v : String) : Prop :=
  recognizedKey k = false ∨ (k = "maxPoolSize" ∧ goAtoi v = none) ∨
  (k = "ssl" ∧ goParseBool v = none) ∨ (k = "connect" ∧ v ≠ "direct" ∧ v ≠ "replicaSet")

/-! Helper lemmas about the embedded operations. -/

theorem goSplitList_ne_nil (sep : Char) : ∀ l : List Char, goSplitList sep l ≠ [] := by
  intro l
  induction l with
  | nil => simp [goSplitList]
  | cons c cs ih =>
    simp only [goSplitList]
    split
    · simp
    · split
      · simp
      · simp

theorem addPair_fst (k v : String) :
    ∀ vals : List (String × List String),
      (addPair vals k v).map Prod.fst =
        if k ∈ vals.map Prod.fst then vals.map Prod.fst else vals.map Prod.fst ++ [k] := by
  intro vals
  induction vals with
  | nil => simp [addPair]
  | cons p rest ih =>
    obtain ⟨k2, vs⟩ := p
    by_cases h : k2 = k
    · subst h
      simp [addPair]
    · have hne : ¬k = k2 := fun e => h e.symm
      simp only [addPair, if_neg h, List.map_cons]
      rw [ih]
      by_cases hm : k ∈ rest.map Prod.fst
      · simp [hm, hne]
      · simp [hm, hne]

theorem addPair_nodup (k v : String) (vals : List (String × List String))
    (h : (vals.map Prod.fst).Nodup) : ((addPair vals k v).map Prod.fst).Nodup := by
  rw [addPair_fst]
  by_cases hm : k ∈ vals.map Prod.fst
  · simpa [hm] using h
  · simp [hm, List.nodup_append, h]

theorem goQuery_nodup_aux (pairs : List (String × String)) :
    ∀ vals : List (String × List String), (vals.map Prod.fst).Nodup →
      ((pairs.foldl (fun acc p => addPair acc p.1 p.2) vals).map Prod.fst).Nodup := by
  induction pairs with
  | nil => intro vals h; simpa using h
  | cons p rest ih => intro vals h; exact ih _ (addPair_nodup _ _ _ h)

theorem goQuery_nodup (rawQuery : String) : ((goQuery rawQuery).map Prod.fst).Nodup :=
  goQuery_nodup_aux _ [] (by simp)

theorem parseMongoURL_eq {rawURL : String} {u : URL} (h : goUrlParse rawURL = .ok u) :
    parseMongoURL rawURL = processQuery (initInfo u) (goQuery u.RawQuery) := by
  unfold parseMongoURL
  rw [h]

/-- The query loop never changes the address list, database, username,
password, or timeout it starts from. -/
theorem processQuery_pres :
    ∀ (l : List (String × List String)) (info d : DialInfo), processQuery info l = .ok d →
      d.Addrs = info.Addrs ∧ d.Database = info.Database ∧ d.Username = info.Username ∧
      d.Password = info.Password ∧ d.Timeout = info.Timeout := by
  intro l
  induction l with
  | nil =>
    intro info d h
    simp only [processQuery, Except.ok.injEq] at h
    subst h
    exact ⟨rfl, rfl, rfl, rfl, rfl⟩
  | cons p rest ih =>
    intro info d h
    obtain ⟨k, vs⟩ := p
    simp only [processQuery] at h
    split at h
    · have h2 := ih _ _ h; exact h2
    · split at h
      · have h2 := ih _ _ h; exact h2
      · split at h
        · have h2 := ih _ _ h; exact h2
        · split at h
          · have h2 := ih _ _ h; exact h2
          · split at h
            · split at h
              · cases h
              · have h2 := ih _ _ h; exact h2
            · split at h
              · split at h
                · cases h
                · split at h
                  · have h2 := ih _ _ h; exact h2
                  · have h2 := ih _ _ h; exact h2
              · split at h
                · split at h
                  · have h2 := ih _ _ h; exact h2
                  · split at h
                    · have h2 := ih _ _ h; exact h2
                    · cases h
                · cases h

/-- One step of the query loop, inverted: a successful run through a cons
cell is a successful run on the tail from an updated info whose untouched
fields agree with the original. -/
theorem processQuery_cons_ok {info d : DialInfo} {k : String} {vs : List String}
    {rest : List (String × List String)}
    (h : processQuery info ((k, vs) :: rest) = .ok d) :
    ∃ info2 : DialInfo, processQuery info2 rest = .ok d ∧
      info2.Addrs = info.Addrs ∧ info2.Database = info.Database ∧
      info2.Username = info.Username ∧ info2.Password = info.Password ∧
      info2.Timeout = info.Timeout ∧
      (info2.Direct = info.Direct ∨ info2.Direct = true) ∧
      (k ≠ "ssl" → info2.dialServerTLS = info.dialServerTLS) ∧
      (k ≠ "maxPoolSize" → info2.PoolLimit = info.PoolLimit) := by
  simp only [processQuery] at h
  split at h
  · exact ⟨_, h, rfl, rfl, rfl, rfl, rfl, Or.inl rfl, fun _ => rfl, fun _ => rfl⟩
  · split at h
    · exact ⟨_, h, rfl, rfl, rfl, rfl, rfl, Or.inl rfl, fun _ => rfl, fun _ => rfl⟩
    · split at h
      · exact ⟨_, h, rfl, rfl, rfl, rfl, rfl, Or.inl rfl, fun _ => rfl, fun _ => rfl⟩
      · split at h
        · exact ⟨_, h, rfl, rfl, rfl, rfl, rfl, Or.inl rfl, fun _ => rfl, fun _ => rfl⟩
        · split at h
          · split at h
            · cases h
            · exact ⟨_, h, rfl, rfl, rfl, rfl, rfl, Or.inl rfl, fun _ => rfl,
                fun hne => absurd ‹k = "maxPoolSize"› hne⟩
          · split at h
            · split at h
              · cases h
              · split at h
                · exact ⟨_, h, rfl, rfl, rfl, rfl, rfl, Or.inl rfl,
                    fun hne => absurd ‹k = "ssl"› hne, fun _ => rfl⟩
                · exact ⟨_, h, rfl, rfl, rfl, rfl, rfl, Or.inl rfl,
                    fun hne => absurd ‹k = "ssl"› hne, fun _ => rfl⟩
            · split at h
              · split at h
                · exact ⟨_, h, rfl, rfl, rfl, rfl, rfl, Or.inr rfl, fun _ => rfl, fun _ => rfl⟩
                · split at h
                  · exact ⟨_, h, rfl, rfl, rfl, rfl, rfl, Or.inl rfl, fun _ => rfl, fun _ => rfl⟩
                  · cases h
              · cases h

/-- An unrecognized key at the head of the loop produces the unsupported
option error, key and value in the message. -/
theorem processQuery_head_unrecognized (info : DialInfo) (k : String) (vs : List String)
    (rest : List (String × List String)) (hk : recognizedKey k = false) :
    processQuery info ((k, vs) :: rest) =
      .error ("unsupported connection URL option: " ++ k ++ "=" ++ vs.headD "") := by
  have h1 : ¬k = "authSource" := by rintro rfl; simp [recognizedKey] at hk
  have h2 : ¬k = "authMechanism" := by rintro rfl; simp [recognizedKey] at hk
  have h3 : ¬k = "gssapiServiceName" := by rintro rfl; simp [recognizedKey] at hk
  have h4 : ¬k = "replicaSet" := by rintro rfl; simp [recognizedKey] at hk
  have h5 : ¬k = "maxPoolSize" := by rintro rfl; simp [recognizedKey] at hk
  have h6 : ¬k = "ssl" := by rintro rfl; simp [recognizedKey] at hk
  have h7 : ¬k = "connect" := by rintro rfl; simp [recognizedKey] at hk
  simp only [processQuery, if_neg h1, if_neg h2, if_neg h3, if_neg h4, if_neg h5, if_neg h6,
    if_neg h7]

theorem processQuery_head_pool_none (info : DialInfo) (vs : List String)
    (rest : List (String × List String)) (ha : goAtoi (vs.headD "") = none) :
    processQuery info (("maxPoolSize", vs) :: rest) =
      .error ("bad value for maxPoolSize: " ++ vs.headD "") := by
  simp [processQuery, ha, -List.headD_eq_head?_getD]

theorem processQuery_head_pool_some (info : DialInfo) (vs : List String)
    (rest : List (String × List String)) (n : Int) (ha : goAtoi (vs.headD "") = some n) :
    processQuery info (("maxPoolSize", vs) :: rest) =
      processQuery { info with PoolLimit := n } rest := by
  simp [processQuery, ha, -List.headD_eq_head?_getD]

theorem processQuery_head_ssl_none (info : DialInfo) (vs : List String)
    (rest : List (String × List String)) (hb : goParseBool (vs.headD "") = none) :
    processQuery info (("ssl", vs) :: rest) = .error ("bad value for ssl: " ++ vs.headD "") := by
  simp [processQuery, hb, -List.headD_eq_head?_getD]

theorem processQuery_head_ssl_some (info : DialInfo) (vs : List String)
    (rest : List (String × List String)) (b : Bool) (hb : goParseBool (vs.headD "") = some b) :
    processQuery info (("ssl", vs) :: rest) =
      (if b then processQuery { info with dialServerTLS := true } rest
       else processQuery info rest) := by
  simp [processQuery, hb, -List.headD_eq_head?_getD]

theorem processQuery_head_connect_direct (info : DialInfo) (vs : List String)
    (rest : List (String × List String)) (hv : vs.headD "" = "direct") :
    processQuery info (("connect", vs) :: rest) = processQuery { info with Direct := true } rest := by
  simp [processQuery, hv, -List.headD_eq_head?_getD]

theorem processQuery_head_connect_replset (info : DialInfo) (vs : List String)
    (rest : List (String × List String)) (hv : vs.headD "" = "replicaSet") :
    processQuery info (("connect", vs) :: rest) = processQuery info rest := by
  simp [processQuery, hv, -List.headD_eq_head?_getD]

theorem processQuery_head_connect_bad (info : DialInfo) (vs : List String)
    (rest : List (String × List String)) (h1 : vs.headD "" ≠ "direct")
    (h2 : vs.headD "" ≠ "replicaSet") :
    processQuery info (("connect", vs) :: rest) =
      .error ("unsupported connection URL option: " ++ "connect" ++ "=" ++ vs.headD "") := by
  simp [processQuery, h1, h2, -List.headD_eq_head?_getD]

/-- The loop never succeeds on a list containing a bad pair. -/
theorem processQuery_fail_of_badpair :
    ∀ (l : List (String × List String)) (info d : DialInfo) (k : String) (vs : List String),
      (k, vs) ∈ l → badPair k (vs.headD "") → processQuery info l ≠ .ok d := by
  intro l
  induction l with
  | nil => intro info d k vs hmem _ _; simp at hmem
  | cons p rest ih =>
    intro info d k vs hmem hb h
    obtain ⟨k0, vs0⟩ := p
    rcases List.mem_cons.mp hmem with heq | hmem2
    · injection heq with hk hv
      subst hk; subst hv
      rcases hb with hb | ⟨hb1, hb2⟩ | ⟨hb1, hb2⟩ | ⟨hb1, hb2, hb3⟩
      · rw [processQuery_head_unrecognized info _ _ _ hb] at h; cases h
      · subst hb1; rw [processQuery_head_pool_none info _ _ hb2] at h; cases h
      · subst hb1; rw [processQuery_head_ssl_none info _ _ hb2] at h; cases h
      · subst hb1; rw [processQuery_head_connect_bad info _ _ hb2 hb3] at h; cases h
    · obtain ⟨info2, h2, -⟩ := processQuery_cons_ok h
      exact ih info2 d k vs hmem2 hb h2

/-- Once Direct is set it is never cleared by the rest of the loop. -/
theorem processQuery_direct_mono :
    ∀ (l : List (String × List String)) (info d : DialInfo), processQuery info l = .ok d →
      info.Direct = true → d.Direct = true := by
  intro l
  induction l with
  | nil =>
    intro info d h hD
    simp only [processQuery, Except.ok.injEq] at h
    subst h; exact hD
  | cons p rest ih =>
    intro info d h hD
    obtain ⟨k, vs⟩ := p
    obtain ⟨info2, h2, -, -, -, -, -, hdir, -, -⟩ := processQuery_cons_ok h
    rcases hdir with he | he
    · exact ih _ _ h2 (he.trans hD)
    · exact ih _ _ h2 he

/-- Without an ssl key in the list the TLS flag is untouched. -/
theorem processQuery_tls_notmem :
    ∀ (l : List (String × List String)) (info d : DialInfo),
      "ssl" ∉ l.map Prod.fst → processQuery info l = .ok d →
      d.dialServerTLS = info.dialServerTLS := by
  intro l
  induction l with
  | nil =>
    intro info d _ h
    simp only [processQuery, Except.ok.injEq] at h
    subst h; rfl
  | cons p rest ih =>
    intro info d hnm h
    obtain ⟨k, vs⟩ := p
    simp only [List.map_cons, List.mem_cons, not_or] at hnm
    obtain ⟨info2, h2, -, -, -, -, -, -, htls, -⟩ := processQuery_cons_ok h
    rw [ih _ _ hnm.2 h2, htls (fun e => hnm.1 e.symm)]

/-- Without a maxPoolSize key in the list the pool limit is untouched. -/
theorem processQuery_pool_notmem :
    ∀ (l : List (String × List String)) (info d : DialInfo),
      "maxPoolSize" ∉ l.map Prod.fst → processQuery info l = .ok d →
      d.PoolLimit = info.PoolLimit := by
  intro l
  induction l with
  | nil =>
    intro info d _ h
    simp only [processQuery, Except.ok.injEq] at h
    subst h; rfl
  | cons p rest ih =>
    intro info d hnm h
    obtain ⟨k, vs⟩ := p
    simp only [List.map_cons, List.mem_cons, not_or] at hnm
    obtain ⟨info2, h2, -, -, -, -, -, -, -, hpl⟩ := processQuery_cons_ok h
    rw [ih _ _ hnm.2 h2, hpl (fun e => hnm.1 e.symm)]

/-- When the loop succeeds and ssl occurred (keys unique, TLS initially
off), the ssl value parsed as a boolean and the TLS flag equals it. -/
theorem processQuery_ssl_ok :
    ∀ (l : List (String × List String)) (info d : DialInfo) (vs : List String),
      (l.map Prod.fst).Nodup → info.dialServerTLS = false →
      ("ssl", vs) ∈ l → processQuery info l = .ok d →
      ∃ b, goParseBool (vs.headD "") = some b ∧ d.dialServerTLS = b := by
  intro l
  induction l with
  | nil => intro info d vs _ _ hmem _; simp at hmem
  | cons p rest ih =>
    intro info d vs hnd htls hmem h
    obtain ⟨k0, vs0⟩ := p
    simp only [List.map_cons, List.nodup_cons] at hnd
    rcases List.mem_cons.mp hmem with heq | hmem2
    · injection heq with hk hv
      subst hv
      subst hk
      rcases hq : goParseBool (vs.headD "") with _ | b
      · rw [processQuery_head_ssl_none info _ _ hq] at h; cases h
      · rw [processQuery_head_ssl_some info _ _ _ hq] at h
        cases b with
        | true =>
          rw [if_pos rfl] at h
          have hnm : "ssl" ∉ rest.map Prod.fst := hnd.1
          exact ⟨true, rfl, processQuery_tls_notmem _ _ _ hnm h⟩
        | false =>
          rw [if_neg (by simp)] at h
          have hnm : "ssl" ∉ rest.map Prod.fst := hnd.1
          exact ⟨false, rfl, (processQuery_tls_notmem _ _ _ hnm h).trans htls⟩
    · have hk0 : k0 ≠ "ssl" := by
        intro e
        exact hnd.1 (e ▸ List.mem_map_of_mem Prod.fst hmem2)
      obtain ⟨info2, h2, -, -, -, -, -, -, htls2, -⟩ := processQuery_cons_ok h
      exact ih info2 d vs hnd.2 ((htls2 hk0).trans htls) hmem2 h2

/-- When the loop succeeds and maxPoolSize occurred (keys unique), its value
parsed as an integer and the pool limit equals it. -/
theorem processQuery_pool_ok :
    ∀ (l : List (String × List String)) (info d : DialInfo) (vs : List String),
      (l.map Prod.fst).Nodup → ("maxPoolSize", vs) ∈ l → processQuery info l = .ok d →
      goAtoi (vs.headD "") = some d.PoolLimit := by
  intro l
  induction l with
  | nil => intro info d vs _ hmem _; simp at hmem
  | cons p rest ih =>
    intro info d vs hnd hmem h
    obtain ⟨k0, vs0⟩ := p
    simp only [List.map_cons, List.nodup_cons] at hnd
    rcases List.mem_cons.mp hmem with heq | hmem2
    · injection heq with hk hv
      subst hv
      subst hk
      rcases hq : goAtoi (vs.headD "") with _ | n
      · rw [processQuery_head_pool_none info _ _ hq] at h; cases h
      · rw [processQuery_head_pool_some info _ _ _ hq] at h
        have hnm : "maxPoolSize" ∉ rest.map Prod.fst := hnd.1
        rw [processQuery_pool_notmem _ _ _ hnm h]
    · obtain ⟨info2, h2, -⟩ := processQuery_cons_ok h
      exact ih info2 d vs hnd.2 hmem2 h2

/-- connect=direct in the list forces Direct in a successful result. -/
theorem processQuery_connect_direct :
    ∀ (l : List (String × List String)) (info d : DialInfo) (vs : List String),
      ("connect", vs) ∈ l → vs.headD "" = "direct" → processQuery info l = .ok d →
      d.Direct = true := by
  intro l
  induction l with
  | nil => intro info d vs hmem _ _; simp at hmem
  | cons p rest ih =>
    intro info d vs hmem hv h
    obtain ⟨k0, vs0⟩ := p
    rcases List.mem_cons.mp hmem with heq | hmem2
    · injection heq with hk hv0
      subst hv0
      subst hk
      rw [processQuery_head_connect_direct info _ _ hv] at h
      exact processQuery_direct_mono _ _ _ h rfl
    · obtain ⟨info2, h2, -⟩ := processQuery_cons_ok h
      exact ih info2 d vs hmem2 hv h2

/-- A recognized key whose value is acceptable steps the loop forward. -/
theorem processQuery_cons_step :
    ∀ (info : DialInfo) (k : String) (vs : List String) (rest : List (String × List String)),
      recognizedKey k = true → validVal k (vs.headD "") →
      ∃ info2, processQuery info ((k, vs) :: rest) = processQuery info2 rest := by
  intro info k vs rest hrec hval
  simp only [recognizedKey, Bool.or_eq_true, beq_iff_eq] at hrec
  rcases hrec with (((((h | h) | h) | h) | h) | h) | h
  · subst h
    exact ⟨{ info with Source := vs.headD "" }, by simp [processQuery]⟩
  · subst h
    exact ⟨{ info with Mechanism := vs.headD "" }, by simp [processQuery]⟩
  · subst h
    exact ⟨{ info with Service := vs.headD "" }, by simp [processQuery]⟩
  · subst h
    exact ⟨{ info with ReplicaSetName := vs.headD "" }, by simp [processQuery]⟩
  · subst h
    obtain ⟨n, hn⟩ := Option.isSome_iff_exists.mp (hval.1 rfl)
    exact ⟨_, processQuery_head_pool_some info _ _ _ hn⟩
  · subst h
    obtain ⟨b, hb⟩ := Option.isSome_iff_exists.mp (hval.2.1 rfl)
    cases b with
    | true =>
      exact ⟨{ info with dialServerTLS := true }, by
        rw [processQuery_head_ssl_some info _ _ _ hb, if_pos rfl]⟩
    | false =>
      exact ⟨info, by rw [processQuery_head_ssl_some info _ _ _ hb, if_neg (by simp)]⟩
  · subst h
    rcases hval.2.2 rfl with hv | hv
    · exact ⟨_, processQuery_head_connect_direct info _ _ hv⟩
    · exact ⟨info, processQuery_head_connect_replset info _ _ hv⟩

/-- When every recognized option value is acceptable and some key is
unrecognized, the loop fails with the unsupported-option message for an
unrecognized key, the key and its value in the message. -/
theorem processQuery_unsupported_msg :
    ∀ (l : List (String × List String)) (info : DialInfo),
      (∀ p ∈ l, validVal p.1 (p.2.headD "")) →
      (∃ p ∈ l, recognizedKey p.1 = false) →
      ∃ k vs, (k, vs) ∈ l ∧ recognizedKey k = false ∧
        processQuery info l =
          .error ("unsupported connection URL option: " ++ k ++ "=" ++ vs.headD "") := by
  intro l
  induction l with
  | nil => intro info _ hex; simp at hex
  | cons p rest ih =>
    intro info hval hex
    obtain ⟨k0, vs0⟩ := p
    by_cases hk : recognizedKey k0 = false
    · exact ⟨k0, vs0, List.mem_cons_self _ _, hk, processQuery_head_unrecognized info _ _ _ hk⟩
    · have hrec : recognizedKey k0 = true := by
        revert hk; cases recognizedKey k0 <;> simp
      have hv0 : validVal k0 (vs0.headD "") := hval _ (List.mem_cons_self _ _)
      obtain ⟨info2, hstep⟩ := processQuery_cons_step info k0 vs0 rest hrec hv0
      have hex2 : ∃ p ∈ rest, recognizedKey p.1 = false := by
        rcases hex with ⟨q, hq, hqr⟩
        rcases List.mem_cons.mp hq with rfl | hq2
        · exact absurd hqr (by simp [hrec])
        · exact ⟨q, hq2, hqr⟩
      obtain ⟨k, vs, hmem, hkr, herr⟩ :=
        ih info2 (fun p hp => hval p (List.mem_cons_of_mem _ hp)) hex2
      exact ⟨k, vs, List.mem_cons_of_mem _ hmem, hkr, hstep.trans herr⟩

/-! The claims. -/

/-- Claim C1, counterexample: parseConnectionURL accepts maxPoolSize=0 and
returns a descriptor whose poolLimit is 0, which is not strictly positive,
so the positivity half of the claim fails on the code. -/
theorem poolLimit_positive_counterexample :
    parseMongoURL "mongodb://host/db?maxPoolSize=0" =
      .ok { Addrs := ["host"], Database := "db", PoolLimit := 0, Timeout := 10000000000 } ∧
    Except.map (fun d => decide (0 < d.PoolLimit))
        (parseMongoURL "mongodb://host/db?maxPoolSize=0") = .ok false :=
  ⟨rfl, rfl⟩

/-- Claim C1 as amended: on every success with a maxPoolSize key the
descriptor's poolLimit is exactly the integer strconv.Atoi parsed from the
value (which may be zero or negative); a non-numeric or malformed value
makes parseConnectionURL fail rather than fall back to a default. -/
theorem poolLimit_parsed_integer :
    (∀ (rawURL : String) (u : URL) (vs : List String),
        goUrlParse rawURL = .ok u → ("maxPoolSize", vs) ∈ goQuery u.RawQuery →
        ((∀ d, parseMongoURL rawURL = .ok d → goAtoi (vs.headD "") = some d.PoolLimit) ∧
         (goAtoi (vs.headD "") = none → ∀ d, parseMongoURL rawURL ≠ .ok d))) ∧
    parseMongoURL "mongodb://host/db?maxPoolSize=-7" =
      .ok { Addrs := ["host"], Database := "db", PoolLimit := -7, Timeout := 10000000000 } := by
  refine ⟨?_, rfl⟩
  intro rawURL u vs hu hmem
  constructor
  · intro d hok
    rw [parseMongoURL_eq hu] at hok
    exact processQuery_pool_ok _ _ _ _ (goQuery_nodup _) hmem hok
  · intro ha d hok
    rw [parseMongoURL_eq hu] at hok
    exact processQuery_fail_of_badpair _ _ _ _ _ hmem (Or.inr (Or.inl ⟨rfl, ha⟩)) hok

theorem poolLimit_parsed_integer_witness :
    goAtoi "-7" = some (DialInfo.PoolLimit { Addrs := ["host"], Database := "db", PoolLimit := -7, Timeout := 10000000000 }) :=
  (poolLimit_parsed_integer.1 "mongodb://host/db?maxPoolSize=-7"
      ⟨"mongodb", none, "host", "/db", "maxPoolSize=-7"⟩ ["-7"] rfl (by decide)).1
    { Addrs := ["host"], Database := "db", PoolLimit := -7, Timeout := 10000000000 } rfl

/-- Claim C2: when the MONGO variable is set and non-empty, resolution is
exactly parseConnectionURL on its value (so no discrete MONGO_ variable can
influence the result); when MONGO is unset or empty, resolution is the
discrete-parameters path. -/
theorem resolve_precedence :
    ∀ env : Env,
      (∀ s : String, env "MONGO" = some s → s ≠ "" → resolve env = parseMongoURL s) ∧
      ((env "MONGO" = none ∨ env "MONGO" = some "") →
        resolve env = .ok (getDialInfoParameters env)) := by
  intro env
  constructor
  · intro s hs hne
    unfold resolve mongoConnectionString getenv
    rw [hs]
    simp [hne]
  · rintro (h | h) <;> unfold resolve mongoConnectionString getenv <;> rw [h] <;> simp

theorem resolve_precedence_witness :
    resolve envWithMongo = parseMongoURL "mongodb://h/d" ∧
    resolve envDiscrete = .ok (getDialInfoParameters envDiscrete) :=
  ⟨(resolve_precedence envWithMongo).1 "mongodb://h/d" rfl (by decide),
   (resolve_precedence envDiscrete).2 (Or.inl rfl)⟩

/-- Claim C3, counterexample: the URLs with no password and with an
explicitly empty password parse to different url.URL values (password
absent versus present-but-empty), yet parseConnectionURL maps them to the
same descriptor, so the descriptor does not distinguish the two cases. -/
theorem password_absent_vs_empty_counterexample :
    goUrlParse "mongodb://u@host/db" =
      .ok ⟨"mongodb", some ⟨"u", none⟩, "host", "/db", ""⟩ ∧
    goUrlParse "mongodb://u:@host/db" =
      .ok ⟨"mongodb", some ⟨"u", some ""⟩, "host", "/db", ""⟩ ∧
    parseMongoURL "mongodb://u@host/db" = parseMongoURL "mongodb://u:@host/db" ∧
    parseMongoURL "mongodb://u@host/db" =
      .ok { Addrs := ["host"], Database := "db", Username := "u", Password := "",
            Timeout := 10000000000 } :=
  ⟨rfl, rfl, rfl, rfl⟩

/-- Claim C3 as amended: when userinfo is present the username and password
are extracted into the descriptor and a missing password is not an error,
but the descriptor does not distinguish an absent password from an
explicitly empty one: both give the empty password string. -/
theorem userinfo_extraction :
    (∀ (rawURL : String) (u : URL) (ui : Userinfo) (d : DialInfo),
        goUrlParse rawURL = .ok u → u.User = some ui → parseMongoURL rawURL = .ok d →
        d.Username = ui.username ∧ d.Password = ui.password.getD "") ∧
    parseMongoURL "mongodb://u@host/db" = parseMongoURL "mongodb://u:@host/db" := by
  refine ⟨?_, rfl⟩
  intro rawURL u ui d hu hUser hok
  rw [parseMongoURL_eq hu] at hok
  have hp := processQuery_pres _ _ _ hok
  constructor
  · rw [hp.2.2.1]
    simp [initInfo, hUser]
  · rw [hp.2.2.2.1]
    simp [initInfo, hUser]

theorem userinfo_extraction_witness :
    DialInfo.Username { Addrs := ["host"], Database := "db", Username := "u", Timeout := 10000000000 } = "u" ∧
    DialInfo.Password { Addrs := ["host"], Database := "db", Username := "u", Timeout := 10000000000 } = "" :=
  userinfo_extraction.1 "mongodb://u@host/db" ⟨"mongodb", some ⟨"u", none⟩, "host", "/db", ""⟩
    ⟨"u", none⟩ { Addrs := ["host"], Database := "db", Username := "u", Timeout := 10000000000 }
    rfl rfl rfl

/-- Claim C4: a query key outside the recognized set makes
parseConnectionURL fail, and (when the recognized options present are
themselves acceptable) the error is the unsupported-option message carrying
an offending key and its value; in particular foo=bar fails with a message
containing foo and bar. -/
theorem unsupported_option_error :
    (∀ (rawURL : String) (u : URL) (k : String) (vs : List String) (d : DialInfo),
        goUrlParse rawURL = .ok u → (k, vs) ∈ goQuery u.RawQuery →
        recognizedKey k = false → parseMongoURL rawURL ≠ .ok d) ∧
    (∀ (rawURL : String) (u : URL),
        goUrlParse rawURL = .ok u →
        (∀ p ∈ goQuery u.RawQuery, validVal p.1 (p.2.headD "")) →
        (∃ p ∈ goQuery u.RawQuery, recognizedKey p.1 = false) →
        ∃ k vs, (k, vs) ∈ goQuery u.RawQuery ∧ recognizedKey k = false ∧
          parseMongoURL rawURL =
            .error ("unsupported connection URL option: " ++ k ++ "=" ++ vs.headD "")) ∧
    parseMongoURL "mongodb://host/db?foo=bar" =
      .error "unsupported connection URL option: foo=bar" := by
  refine ⟨?_, ?_, rfl⟩
  · intro rawURL u k vs d hu hmem hk hok
    rw [parseMongoURL_eq hu] at hok
    exact processQuery_fail_of_badpair _ _ _ _ _ hmem (Or.inl hk) hok
  · intro rawURL u hu hval hex
    obtain ⟨k, vs, hmem, hk, herr⟩ :=
      processQuery_unsupported_msg (goQuery u.RawQuery) (initInfo u) hval hex
    exact ⟨k, vs, hmem, hk, (parseMongoURL_eq hu).trans herr⟩

theorem unsupported_option_error_witness :
    parseMongoURL "mongodb://host/db?foo=bar" ≠ Except.ok { } :=
  unsupported_option_error.1 "mongodb://host/db?foo=bar"
    ⟨"mongodb", none, "host", "/db", "foo=bar"⟩ "foo" ["bar"] { } rfl (by decide) rfl

/-- Claim C5: an ssl key whose value is not a boolean makes
parseConnectionURL fail (with the bad-value-for-ssl message, as the
concrete case shows); on success the value parsed as a boolean and the
TLS dial strategy flag equals it (true installs the TLS dialer, false
keeps the plain transport). -/
theorem ssl_option_boolean :
    (∀ (rawURL : String) (u : URL) (vs : List String),
        goUrlParse rawURL = .ok u → ("ssl", vs) ∈ goQuery u.RawQuery →
        ((goParseBool (vs.headD "") = none → ∀ d, parseMongoURL rawURL ≠ .ok d) ∧
         (∀ d, parseMongoURL rawURL = .ok d →
            ∃ b, goParseBool (vs.headD "") = some b ∧ d.dialServerTLS = b))) ∧
    parseMongoURL "mongodb://host/db?ssl=true" =
      .ok { Addrs := ["host"], Database := "db", dialServerTLS := true,
            Timeout := 10000000000 } ∧
    parseMongoURL "mongodb://host/db?ssl=false" =
      .ok { Addrs := ["host"], Database := "db", Timeout := 10000000000 } ∧
    parseMongoURL "mongodb://host/db?ssl=notabool" = .error "bad value for ssl: notabool" := by
  refine ⟨?_, rfl, rfl, rfl⟩
  intro rawURL u vs hu hmem
  constructor
  · intro hpb d hok
    rw [parseMongoURL_eq hu] at hok
    exact processQuery_fail_of_badpair _ _ _ _ _ hmem
      (Or.inr (Or.inr (Or.inl ⟨rfl, hpb⟩))) hok
  · intro d hok
    rw [parseMongoURL_eq hu] at hok
    exact processQuery_ssl_ok _ _ _ _ (goQuery_nodup _) rfl hmem hok

theorem ssl_option_boolean_witness :
    ∃ b, goParseBool "true" = some b ∧
      DialInfo.dialServerTLS { Addrs := ["host"], Database := "db", dialServerTLS := true, Timeout := 10000000000 } = b :=
  (ssl_option_boolean.1 "mongodb://host/db?ssl=true"
      ⟨"mongodb", none, "host", "/db", "ssl=true"⟩ ["true"] rfl (by decide)).2
    { Addrs := ["host"], Database := "db", dialServerTLS := true, Timeout := 10000000000 } rfl

/-- Claim C6: a maxPoolSize key whose value is not an integer makes
parseConnectionURL fail (with the bad-value message, as the concrete case
shows); on success the descriptor's poolLimit is the parsed integer;
maxPoolSize=50 yields poolLimit 50 and maxPoolSize=abc fails. -/
theorem maxPoolSize_option_integer :
    (∀ (rawURL : String) (u : URL) (vs : List String),
        goUrlParse rawURL = .ok u → ("maxPoolSize", vs) ∈ goQuery u.RawQuery →
        ((goAtoi (vs.headD "") = none → ∀ d, parseMongoURL rawURL ≠ .ok d) ∧
         (∀ d, parseMongoURL rawURL = .ok d → goAtoi (vs.headD "") = some d.PoolLimit))) ∧
    parseMongoURL "mongodb://host/db?maxPoolSize=50" =
      .ok { Addrs := ["host"], Database := "db", PoolLimit := 50, Timeout := 10000000000 } ∧
    parseMongoURL "mongodb://host/db?maxPoolSize=abc" =
      .error "bad value for maxPoolSize: abc" := by
  refine ⟨?_, rfl, rfl⟩
  intro rawURL u vs hu hmem
  constructor
  · intro ha d hok
    rw [parseMongoURL_eq hu] at hok
    exact processQuery_fail_of_badpair _ _ _ _ _ hmem (Or.inr (Or.inl ⟨rfl, ha⟩)) hok
  · intro d hok
    rw [parseMongoURL_eq hu] at hok
    exact processQuery_pool_ok _ _ _ _ (goQuery_nodup _) hmem hok

theorem maxPoolSize_option_integer_witness :
    goAtoi "50" = some (DialInfo.PoolLimit { Addrs := ["host"], Database := "db", PoolLimit := 50, Timeout := 10000000000 }) :=
  (maxPoolSize_option_integer.1 "mongodb://host/db?maxPoolSize=50"
      ⟨"mongodb", none, "host", "/db", "maxPoolSize=50"⟩ ["50"] rfl (by decide)).2
    { Addrs := ["host"], Database := "db", PoolLimit := 50, Timeout := 10000000000 } rfl

/-- Claim C7: connect=direct sets directConnect on success; connect with a
value other than direct or replicaSet makes parseConnectionURL fail with
the unsupported-option error (shown concretely for bogus); and
connect=replicaSet is accepted with no effect on the descriptor. -/
theorem connect_option_values :
    (∀ (rawURL : String) (u : URL) (vs : List String),
        goUrlParse rawURL = .ok u → ("connect", vs) ∈ goQuery u.RawQuery →
        ((vs.headD "" = "direct" → ∀ d, parseMongoURL rawURL = .ok d → d.Direct = true) ∧
         (vs.headD "" ≠ "direct" → vs.headD "" ≠ "replicaSet" →
           ∀ d, parseMongoURL rawURL ≠ .ok d))) ∧
    (∀ (info : DialInfo) (vs : List String) (rest : List (String × List String)),
        vs.headD "" = "replicaSet" →
        processQuery info (("connect", vs) :: rest) = processQuery info rest) ∧
    parseMongoURL "mongodb://host/db?connect=direct" =
      .ok { Addrs := ["host"], Database := "db", Direct := true, Timeout := 10000000000 } ∧
    parseMongoURL "mongodb://host/db?connect=replicaSet" = parseMongoURL "mongodb://host/db" ∧
    parseMongoURL "mongodb://host/db?connect=bogus" =
      .error "unsupported connection URL option: connect=bogus" := by
  refine ⟨?_, ?_, rfl, rfl, rfl⟩
  · intro rawURL u vs hu hmem
    constructor
    · intro hv d hok
      rw [parseMongoURL_eq hu] at hok
      exact processQuery_connect_direct _ _ _ _ hmem hv hok
    · intro hv1 hv2 d hok
      rw [parseMongoURL_eq hu] at hok
      exact processQuery_fail_of_badpair _ _ _ _ _ hmem
        (Or.inr (Or.inr (Or.inr ⟨rfl, hv1, hv2⟩))) hok
  · intro info vs rest hv
    exact processQuery_head_connect_replset info vs rest hv

theorem connect_option_values_witness :
    DialInfo.Direct { Addrs := ["host"], Database := "db", Direct := true, Timeout := 10000000000 } = true :=
  (connect_option_values.1 "mongodb://host/db?connect=direct"
      ⟨"mongodb", none, "host", "/db", "connect=direct"⟩ ["direct"] rfl (by decide)).1 rfl
    { Addrs := ["host"], Database := "db", Direct := true, Timeout := 10000000000 } rfl

/-- Claim C8: on every success the descriptor's addresses are exactly the
comma-split segments of the URL's host, in order; the multi-host replica
set example yields the two addresses, database mydb and replica set name
test. -/
theorem addresses_comma_split :
    (∀ (rawURL : String) (u : URL) (d : DialInfo),
        goUrlParse rawURL = .ok u → parseMongoURL rawURL = .ok d →
        d.Addrs = goStringsSplit u.Host ',') ∧
    parseMongoURL "mongodb://db1:27017,db2:2500/mydb?replicaSet=test" =
      .ok { Addrs := ["db1:27017", "db2:2500"], Database := "mydb",
            ReplicaSetName := "test", Timeout := 10000000000 } := by
  refine ⟨?_, rfl⟩
  intro rawURL u d hu hd
  rw [parseMongoURL_eq hu] at hd
  exact (processQuery_pres _ _ _ hd).1

theorem addresses_comma_split_witness :
    DialInfo.Addrs { Addrs := ["db1:27017", "db2:2500"], Database := "mydb", ReplicaSetName := "test", Timeout := 10000000000 } = goStringsSplit "db1:27017,db2:2500" ',' :=
  addresses_comma_split.1 "mongodb://db1:27017,db2:2500/mydb?replicaSet=test"
    ⟨"mongodb", none, "db1:27017,db2:2500", "/mydb", "replicaSet=test"⟩
    { Addrs := ["db1:27017", "db2:2500"], Database := "mydb", ReplicaSetName := "test",
      Timeout := 10000000000 } rfl rfl

/-- Claim C9: on every success the descriptor's database is the URL path
with a single leading slash stripped (TrimPrefix semantics: exactly one
copy, as the path //x giving database /x shows). -/
theorem database_path_trim :
    (∀ (rawURL : String) (u : URL) (d : DialInfo),
        goUrlParse rawURL = .ok u → parseMongoURL rawURL = .ok d →
        d.Database = goTrimPfx u.Path ['/']) ∧
    (∀ s : String, listStartsWith s.toList ['/'] = true →
        goTrimPfx s ['/'] = String.mk (s.toList.drop 1)) ∧
    (∀ s : String, listStartsWith s.toList ['/'] = false → goTrimPfx s ['/'] = s) ∧
    parseMongoURL "mongodb://host//x" =
      .ok { Addrs := ["host"], Database := "/x", Timeout := 10000000000 } := by
  refine ⟨?_, ?_, ?_, rfl⟩
  · intro rawURL u d hu hd
    rw [parseMongoURL_eq hu] at hd
    exact (processQuery_pres _ _ _ hd).2.1
  · intro s h
    unfold goTrimPfx
    rw [h]
    rfl
  · intro s h
    unfold goTrimPfx
    rw [h]
    rfl

theorem database_path_trim_witness :
    DialInfo.Database { Addrs := ["host"], Database := "/x", Timeout := 10000000000 } =
      goTrimPfx "//x" ['/'] :=
  database_path_trim.1 "mongodb://host//x" ⟨"mongodb", none, "host", "//x", ""⟩
    { Addrs := ["host"], Database := "/x", Timeout := 10000000000 } rfl rfl

/-- Claim C10: parseConnectionURL does not validate the host: the
empty-authority URL succeeds with addresses equal to the one-element list
holding the empty string, and on every success the addresses list is
non-empty (strings.Split never returns an empty slice). -/
theorem addresses_unvalidated :
    parseMongoURL "mongodb:///mydb" =
      .ok { Addrs := [""], Database := "mydb", Timeout := 10000000000 } ∧
    (∀ (rawURL : String) (d : DialInfo), parseMongoURL rawURL = .ok d → d.Addrs ≠ []) := by
  refine ⟨rfl, ?_⟩
  intro rawURL d hd hnil
  rcases hu : goUrlParse rawURL with e | u
  · simp [parseMongoURL, hu] at hd
  · rw [parseMongoURL_eq hu] at hd
    have h1 := (processQuery_pres _ _ _ hd).1
    rw [hnil] at h1
    exact goSplitList_ne_nil ',' u.Host.toList (List.map_eq_nil_iff.mp h1.symm)

theorem addresses_unvalidated_witness :
    DialInfo.Addrs { Addrs := [""], Database := "mydb", Timeout := 10000000000 } ≠ [] :=
  addresses_unvalidated.2 "mongodb:///mydb"
    { Addrs := [""], Database := "mydb", Timeout := 10000000000 } rfl

end GoMongo
